import Mathlib

/-!
Shallow embedding of the Thread Topology builder
(custom_components/thread_topology/coordinator.py) and the parts of the
SVG renderer the layout claims concern.

JSON inputs are modelled with `Option` fields: `none` stands for an absent
key, and every access mirrors the Python `dict.get(key, default)` calls of
the source.  Python `dict` insertion (insertion-ordered, last write wins,
key position preserved on overwrite) is modelled by `dictInsert` on an
association list.
-/

namespace ThreadTopology

/-- `Mode` sub-object of a diagnostic record or a child entry:
`{DeviceType, RxOnWhenIdle}`. -/
structure NodeMode where
  DeviceType : Option Nat
  RxOnWhenIdle : Option Nat
  deriving Repr, DecidableEq

/-- `Connectivity` sub-object: `{LeaderCost, LinkQuality3, LinkQuality2,
LinkQuality1}`. -/
structure Connectivity where
  LeaderCost : Option Nat
  LinkQuality3 : Option Nat
  LinkQuality2 : Option Nat
  LinkQuality1 : Option Nat
  deriving Repr, DecidableEq

/-- One entry of `ChildTable`. -/
structure ChildEntry where
  ChildId : Option Nat
  Mode : Option NodeMode
  Timeout : Option Nat
  deriving Repr, DecidableEq

/-- One entry of `Route.RouteData`. -/
structure RouteEntry where
  RouteId : Option Nat
  LinkQualityOut : Option Nat
  LinkQualityIn : Option Nat
  RouteCost : Option Nat
  deriving Repr, DecidableEq

/-- The `Route` sub-object: `{RouteData}`. -/
structure RouteObj where
  RouteData : Option (List RouteEntry)
  deriving Repr, DecidableEq

/-- One diagnostic record of the diagnostics endpoint. -/
structure DiagRecord where
  ExtAddress : Option String
  Rloc16 : Option Nat
  Mode : Option NodeMode
  Connectivity : Option Connectivity
  ChildTable : Option (List ChildEntry)
  Route : Option RouteObj
  IP6AddressList : Option (List String)
  deriving Repr, DecidableEq

/-- The node-summary document of the node endpoint. -/
structure NodeData where
  ExtAddress : Option String
  NetworkName : Option String
  NumOfRouter : Option Nat
  State : Option String
  deriving Repr, DecidableEq

/-- A paired Matter device record as supplied by the device registry:
`{name, model, manufacturer, transport}` (the unused `identifiers` list is
omitted). -/
structure MatterDevice where
  name : String
  model : String
  manufacturer : String
  transport : String
  deriving Repr, DecidableEq

/-- A known Thread border router record (`{name, manufacturer, model}`),
carried through `_process_topology` unchanged. -/
structure KnownRouter where
  name : String
  manufacturer : String
  model : String
  deriving Repr, DecidableEq

/-- The identity returned by `_identify_router`:
`{name, manufacturer, type, icon}`. -/
structure RouterInfo where
  name : String
  manufacturer : String
  type : String
  icon : String
  deriving Repr, DecidableEq

/-- A processed child (`child_info` dict).  The `name`/`manufacturer`/`model`
keys are present exactly when a Matter device was matched; that optional
block is modelled by `matched : Option MatterDevice`. -/
structure ChildInfo where
  id : Nat
  type : String
  timeout : Nat
  rloc16 : Nat
  matched : Option MatterDevice
  deriving Repr, DecidableEq

/-- A kept route connection (`connections` list entry). -/
structure Connection where
  router_id : Nat
  lq_out : Nat
  lq_in : Nat
  cost : Nat
  deriving Repr, DecidableEq

/-- A processed topology node (`nodes[ext_address]` dict). -/
structure TopologyNode where
  ext_address : String
  rloc16 : Nat
  role : String
  name : String
  manufacturer : String
  device_type : String
  icon : String
  link_quality : Nat
  leader_cost : Nat
  children : List ChildInfo
  child_count : Nat
  connections : List Connection
  ip_addresses : List String
  deriving Repr, DecidableEq

/-- The `matter_devices` summary block of the returned topology. -/
structure MatterSummary where
  thread : List MatterDevice
  wifi : List MatterDevice
  total : Nat
  deriving Repr, DecidableEq

/-- The topology structure returned by `_process_topology`. -/
structure Topology where
  network_name : String
  state : String
  leader_address : String
  router_count : Nat
  nodes : List (String × TopologyNode)
  total_devices : Nat
  matter_devices : MatterSummary
  known_routers : List KnownRouter
  deriving Repr, DecidableEq

/-- Python-dict insertion on an association list: if the key is present the
entry is overwritten in place, otherwise the pair is appended. -/
def dictInsert (m : List (String × TopologyNode)) (k : String) (v : TopologyNode) :
    List (String × TopologyNode) :=
  if m.any (fun p => p.1 = k) then
    m.map (fun p => if p.1 = k then (k, v) else p)
  else
    m ++ [(k, v)]

/-- The keys of the node map, in insertion order. -/
def keysOf (m : List (String × TopologyNode)) : List String :=
  m.map Prod.fst

/-! ## `_identify_router` (coordinator.py lines 199-260) -/

/-- One value of the `KNOWN_BORDER_ROUTER_OUIS` table. -/
structure OUIInfo where
  name : String
  manufacturer : String
  icon : String
  deriving Repr, DecidableEq

/-- `KNOWN_BORDER_ROUTER_OUIS` (coordinator.py lines 27-70). -/
def knownBorderRouterOUIs : List (String × OUIInfo) :=
  [ ("28:6D:97", ⟨"Apple HomePod", "Apple", "homepod"⟩),
    ("3C:22:FB", ⟨"Apple HomePod", "Apple", "homepod"⟩),
    ("38:C9:86", ⟨"Apple TV", "Apple", "appletv"⟩),
    ("D0:03:4B", ⟨"Apple HomePod", "Apple", "homepod"⟩),
    ("F0:B3:EC", ⟨"Apple HomePod Mini", "Apple", "homepod"⟩),
    ("64:B5:C6", ⟨"Apple Device", "Apple", "apple"⟩),
    ("18:D6:C7", ⟨"Google Nest Hub", "Google", "nest"⟩),
    ("1C:F2:9A", ⟨"Google Nest", "Google", "nest"⟩),
    ("20:DF:B9", ⟨"Google Nest WiFi", "Google", "nest"⟩),
    ("48:D6:D5", ⟨"Google Nest Hub Max", "Google", "nest"⟩),
    ("54:60:09", ⟨"Google Nest", "Google", "nest"⟩),
    ("F4:F5:D8", ⟨"Google Nest", "Google", "nest"⟩),
    ("F4:F5:E8", ⟨"Google Nest Mini", "Google", "nest"⟩),
    ("50:EC:50", ⟨"Eero Pro", "Amazon/Eero", "eero"⟩),
    ("68:2A:2B", ⟨"Eero Pro 6", "Amazon/Eero", "eero"⟩),
    ("70:3A:CB", ⟨"Eero", "Amazon/Eero", "eero"⟩),
    ("F0:81:75", ⟨"Eero Pro 6E", "Amazon/Eero", "eero"⟩),
    ("24:FC:E5", ⟨"SmartThings Hub", "Samsung", "smartthings"⟩),
    ("28:6D:CD", ⟨"SmartThings Station", "Samsung", "smartthings"⟩),
    ("D0:52:A8", ⟨"SmartThings Hub", "Samsung", "smartthings"⟩),
    ("00:55:DA", ⟨"Nanoleaf Controller", "Nanoleaf", "nanoleaf"⟩),
    ("04:CD:15", ⟨"Silicon Labs Device", "Silicon Labs", "chip"⟩),
    ("58:8E:81", ⟨"Silicon Labs Device", "Silicon Labs", "chip"⟩),
    ("84:2E:14", ⟨"Silicon Labs Device", "Silicon Labs", "chip"⟩),
    ("F8:F0:05", ⟨"Nordic Device", "Nordic Semiconductor", "chip"⟩),
    ("34:85:18", ⟨"ESP32 Thread", "Espressif", "chip"⟩),
    ("40:22:D8", ⟨"ESP32 Thread", "Espressif", "chip"⟩) ]

/-- `BORDER_ROUTER_PATTERNS` (coordinator.py lines 73-77):
`(pattern, name, manufacturer)` triples, in order. -/
def borderRouterPatterns : List (String × String × String) :=
  [ ("EA17", "Eero", "Amazon/Eero"),
    ("EA", "Eero", "Amazon/Eero") ]

/-- `pat` occurs as a leading run of `s` (helper for substring search). -/
def leadsWith : List Char → List Char → Bool
  | [], _ => true
  | _ :: _, [] => false
  | a :: as, b :: bs => a = b && leadsWith as bs

/-- Python's `pat in s` substring test on character lists. -/
def hasSubstr : List Char → List Char → Bool
  | pat, [] => pat.isEmpty
  | pat, c :: cs => leadsWith pat (c :: cs) || hasSubstr pat cs

/-- Python's `str.upper()` on the ASCII hex/colon addresses involved. -/
def upperStr (s : String) : String :=
  (s.toList.map Char.toUpper).asString

/-- `f"{u[0:2]}:{u[2:4]}:{u[4:6]}"`: the leading-6-characters OUI format. -/
def ouiFormat1 (u : List Char) : String :=
  (u.take 2 ++ [':'] ++ ((u.drop 2).take 2) ++ [':'] ++ ((u.drop 4).take 2)).asString

/-- `f"{u[-6:-4]}:{u[-4:-2]}:{u[-2:]}"`: the trailing-6-characters OUI format. -/
def ouiFormat2 (u : List Char) : String :=
  ouiFormat1 (u.drop (u.length - 6))

/-- `ROUTER_NAMES` generic fallback list of `_identify_router`
(coordinator.py lines 242-248). -/
def routerNames : List (String × String) :=
  [ ("Eero", "Amazon/Eero"),
    ("Google Nest", "Google"),
    ("Apple HomePod", "Apple"),
    ("SmartThings", "Samsung"),
    ("Thread Router", "Unknown") ]

/-- `_identify_router(ext_address, is_leader, router_index)`
(coordinator.py lines 199-260). -/
def identifyRouter (ext_address : String) ( is_leader : Bool) (router_index : Nat) :
    RouterInfo :=
  if is_leader then
    ⟨"SkyConnect (OTBR)", "Nabu Casa", "border_router", "home-assistant"⟩
  else
    let u := (upperStr ext_address).toList
    let viaOUI : Option OUIInfo :=
      if 6 ≤ u.length then
        match knownBorderRouterOUIs.lookup (ouiFormat1 u) with
        | some info => some info
        | none => knownBorderRouterOUIs.lookup (ouiFormat2 u)
      else none
    match viaOUI with
    | some info => ⟨info.name, info.manufacturer, "border_router", info.icon⟩
    | none =>
      match borderRouterPatterns.find? (fun p => hasSubstr p.1.toList u) with
      | some (_, n, m) => ⟨n, m, "border_router", "router"⟩
      | none =>
        let nm := routerNames.getD (router_index % routerNames.length)
          ("Thread Router", "Unknown")
        let name :=
          if router_index > 0 then nm.1 ++ " #" ++ toString (router_index + 1) else nm.1
        ⟨name, nm.2, "border_router", "router"⟩

/-! ## `_process_topology` (coordinator.py lines 276-408) -/

/-- The link-quality reduction (coordinator.py lines 329-336). -/
def computeLinkQuality (lq3 lq2 lq1 : Nat) : Nat :=
  if lq3 > 0 then 3
  else if lq2 > 0 then 2
  else if lq1 > 0 then 1
  else 0

/-- The body of the child loop (coordinator.py lines 341-364) for one child
entry: returns the produced `child_info` and the updated
`thread_device_idx`. -/
def processChild (rloc16 : Nat) (thread_matter : List MatterDevice) (idx : Nat)
    (child : ChildEntry) : ChildInfo × Nat :=
  let child_id := child.ChildId.getD 0
  let child_mode := child.Mode.getD ⟨none, none⟩
  let child_type := if child_mode.RxOnWhenIdle.getD 1 = 0 then "sleepy" else "active"
  let matchState : Option MatterDevice × Nat :=
    if h : idx < thread_matter.length then (some (thread_matter.get ⟨idx, h⟩), idx + 1)
    else (none, idx)
  (⟨child_id, child_type, child.Timeout.getD 0, rloc16 + child_id, matchState.1⟩,
    matchState.2)

/-- The child loop over a `ChildTable`, threading `thread_device_idx`. -/
def processChildren (rloc16 : Nat) (thread_matter : List MatterDevice) (idx : Nat) :
    List ChildEntry → List ChildInfo × Nat
  | [] => ([], idx)
  | c :: cs =>
    let step := processChild rloc16 thread_matter idx c
    let rest := processChildren rloc16 thread_matter step.2 cs
    (step.1 :: rest.1, rest.2)

/-- The route loop (coordinator.py lines 370-377): keep entries with
`RouteCost` (default 255) below 255, carrying id/out/in/cost (default 0). -/
def processRoute : List RouteEntry → List Connection
  | [] => []
  | rd :: rds =>
    if rd.RouteCost.getD 255 < 255 then
      ⟨rd.RouteId.getD 0, rd.LinkQualityOut.getD 0, rd.LinkQualityIn.getD 0,
        rd.RouteCost.getD 0⟩ :: processRoute rds
    else processRoute rds

/-- A record's defaulted `ExtAddress` (`diag.get("ExtAddress", "")`). -/
def extAddrD (d : DiagRecord) : String :=
  d.ExtAddress.getD ""

/-- The node built for one diagnostic record (coordinator.py lines 299-393),
given the running `thread_device_idx` and `router_index`. -/
def diagNode (leader_ext : String) (thread_matter : List MatterDevice)
    (ti ri : Nat) (d : DiagRecord) : TopologyNode :=
  let ext_address := extAddrD d
  let rloc16 := d.Rloc16.getD 0
  let mode := d.Mode.getD ⟨none, none⟩
  let is_router : Bool := mode.DeviceType.getD 0 = 1
  let is_leader : Bool := ext_address = leader_ext
  let role := if is_leader then "leader" else if is_router then "router" else "end_device"
  let router_info := identifyRouter ext_address is_leader ri
  let connectivity := d.Connectivity.getD ⟨none, none, none, none⟩
  let link_quality := computeLinkQuality (connectivity.LinkQuality3.getD 0)
    (connectivity.LinkQuality2.getD 0) (connectivity.LinkQuality1.getD 0)
  let children := (processChildren rloc16 thread_matter ti (d.ChildTable.getD [])).1
  let connections := processRoute ((d.Route.getD ⟨none⟩).RouteData.getD [])
  { ext_address := ext_address
    rloc16 := rloc16
    role := role
    name := router_info.name
    manufacturer := router_info.manufacturer
    device_type := router_info.type
    icon := router_info.icon
    link_quality := link_quality
    leader_cost := connectivity.LeaderCost.getD 0
    children := children
    child_count := children.length
    connections := connections
    ip_addresses := d.IP6AddressList.getD [] }

/-- The updated `thread_device_idx` after one diagnostic record. -/
def diagThreadIdx (thread_matter : List MatterDevice) (ti : Nat) (d : DiagRecord) : Nat :=
  (processChildren (d.Rloc16.getD 0) thread_matter ti (d.ChildTable.getD [])).2

/-- The updated `router_index` after one diagnostic record: incremented for
`leader`/`router` roles (coordinator.py lines 317-318). -/
def diagRouterIdx (leader_ext : String) (ri : Nat) (d : DiagRecord) : Nat :=
  let is_router : Bool := (d.Mode.getD ⟨none, none⟩).DeviceType.getD 0 = 1
  let is_leader : Bool := extAddrD d = leader_ext
  if is_leader || is_router then ri + 1 else ri

/-- Builder state: the node map, `thread_device_idx`, `router_index`. -/
abbrev BuildState := List (String × TopologyNode) × Nat × Nat

/-- The body of the `for diag in diagnostics_data` loop
(coordinator.py lines 299-393). -/
def processDiag (leader_ext : String) (thread_matter : List MatterDevice)
    (acc : BuildState) (d : DiagRecord) : BuildState :=
  (dictInsert acc.1 (extAddrD d) (diagNode leader_ext thread_matter acc.2.1 acc.2.2 d),
    diagThreadIdx thread_matter acc.2.1 d,
    diagRouterIdx leader_ext acc.2.2 d)

/-- `_process_topology(node_data, diagnostics_data, matter_devices,
thread_routers)` (coordinator.py lines 276-408). -/
def processTopology (node_data : NodeData) (diagnostics_data : List DiagRecord)
    (matter_devices : List MatterDevice) (thread_routers : List KnownRouter) :
    Topology :=
  let leader_ext_address := node_data.ExtAddress.getD ""
  let thread_matter := matter_devices.filter (fun dv => dv.transport = "thread")
  let wifi_matter := matter_devices.filter (fun dv => dv.transport = "wifi")
  let st := diagnostics_data.foldl (processDiag leader_ext_address thread_matter)
    ([], 0, 0)
  { network_name := node_data.NetworkName.getD "Unknown"
    state := node_data.State.getD "unknown"
    leader_address := leader_ext_address
    router_count := node_data.NumOfRouter.getD 0
    nodes := st.1
    total_devices := st.1.length + (st.1.map (fun p => p.2.child_count)).sum
    matter_devices := ⟨thread_matter, wifi_matter, matter_devices.length⟩
    known_routers := thread_routers }

/-! ## `generate_svg` router-row layout (coordinator.py lines 423-511) -/

/-- The `routers` list collected in `generate_svg`: the node-map values
whose role is `"router"`, in map order (coordinator.py lines 424-430). -/
def svgRouters (t : Topology) : List TopologyNode :=
  (t.nodes.map Prod.snd).filter (fun n => n.role = "router")

/-- `router_positions` (coordinator.py lines 504-511): when there is at
least one router, spacing is `min(200, 600 // (num_routers + 1))` with
`num_routers = len(routers)`, and positions march from
`400 - (num_routers - 1) * spacing // 2` at `y = 340`. -/
def routerPositions (t : Topology) : List (Nat × Nat) :=
  let num_routers := (svgRouters t).length
  if num_routers > 0 then
    let router_spacing := min 200 (600 / (num_routers + 1))
    let start_x := 400 - (num_routers - 1) * router_spacing / 2
    (List.range num_routers).map (fun i => (start_x + i * router_spacing, 340))
  else []

/-- The router-row spacing, defined when the row is non-empty. -/
def routerSpacing (t : Topology) : Option Nat :=
  let num_routers := (svgRouters t).length
  if num_routers > 0 then some (min 200 (600 / (num_routers + 1))) else none

/-! ## Helper lemmas about the dictionary model -/

theorem any_key_eq_true {m : List (String × TopologyNode)} {k : String} :
    (m.any fun p => p.1 = k) = true ↔ k ∈ keysOf m := by
  simp [keysOf, List.any_eq_true, List.mem_map]

theorem mem_dictInsert {m : List (String × TopologyNode)} {k : String}
    {v : TopologyNode} {p : String × TopologyNode} (hp : p ∈ dictInsert m k v) :
    p = (k, v) ∨ p ∈ m := by
  unfold dictInsert at hp
  split at hp
  · rcases List.mem_map.mp hp with ⟨q, hq, he⟩
    by_cases hqk : q.1 = k
    · rw [if_pos hqk] at he
      exact Or.inl he.symm
    · rw [if_neg hqk] at he
      exact Or.inr (he ▸ hq)
  · rcases List.mem_append.mp hp with h | h
    · exact Or.inr h
    · exact Or.inl (List.mem_singleton.mp h)

theorem dictInsert_of_not_mem {m : List (String × TopologyNode)} {k : String}
    {v : TopologyNode} (hk : k ∉ keysOf m) :
    dictInsert m k v = m ++ [(k, v)] := by
  unfold dictInsert
  rw [if_neg]
  intro h
  exact hk (any_key_eq_true.mp h)

theorem keysOf_append (m₁ m₂ : List (String × TopologyNode)) :
    keysOf (m₁ ++ m₂) = keysOf m₁ ++ keysOf m₂ := by
  simp [keysOf]

theorem keysOf_dictInsert_mem {m : List (String × TopologyNode)} {k x : String}
    {v : TopologyNode} :
    x ∈ keysOf (dictInsert m k v) ↔ x ∈ keysOf m ∨ x = k := by
  unfold dictInsert
  split
  · rename_i h
    have hk : k ∈ keysOf m := any_key_eq_true.mp h
    constructor
    · intro hx
      rcases List.mem_map.mp hx with ⟨q, hq, he⟩
      rcases List.mem_map.mp hq with ⟨r, hr, he'⟩
      by_cases hrk : r.1 = k
      · right; simp [hrk] at he'; rw [← he, ← he']
      · left; exact List.mem_map.mpr ⟨r, hr, by rw [← he, ← he']; simp [hrk]⟩
    · intro hx
      rcases hx with hx | hx
      · rcases List.mem_map.mp hx with ⟨r, hr, he⟩
        by_cases hrk : r.1 = k
        · rw [← he, hrk]
          exact List.mem_map.mpr ⟨(k, v), List.mem_map.mpr ⟨r, hr, by simp [hrk]⟩, rfl⟩
        · exact List.mem_map.mpr ⟨r, List.mem_map.mpr ⟨r, hr, by simp [hrk]⟩, he⟩
      · subst hx
        rcases List.mem_map.mp hk with ⟨r, hr, he⟩
        exact List.mem_map.mpr ⟨(x, v), List.mem_map.mpr ⟨r, hr, by simp [he]⟩, rfl⟩
  · rw [keysOf_append]
    simp [keysOf]

theorem keysOf_dictInsert_nodup {m : List (String × TopologyNode)} {k : String}
    {v : TopologyNode} (h : (keysOf m).Nodup) :
    (keysOf (dictInsert m k v)).Nodup := by
  unfold dictInsert
  split
  · have : keysOf (m.map fun p => if p.1 = k then (k, v) else p) = keysOf m := by
      unfold keysOf
      rw [List.map_map]
      apply List.map_congr_left
      intro p _
      by_cases hp : p.1 = k <;> simp [hp]
    rw [this]; exact h
  · rename_i hany
    have hk : k ∉ keysOf m := fun hm => hany (any_key_eq_true.mpr hm)
    have hk1 : keysOf (m ++ [(k, v)]) = keysOf m ++ [k] := by
      rw [keysOf_append]; rfl
    rw [hk1]
    refine List.Nodup.append h (List.nodup_singleton k) ?_
    intro a ha hb
    rw [List.mem_singleton] at hb
    exact hk (hb ▸ ha)

theorem exists_of_mem_keysOf {m : List (String × TopologyNode)} {x : String}
    (hx : x ∈ keysOf m) : ∃ v, (x, v) ∈ m := by
  rcases List.mem_map.mp hx with ⟨p, hp, he⟩
  refine ⟨p.2, ?_⟩
  have : (x, p.2) = p := by
    rw [← he]
  rwa [this]

/-! ## Field lemmas for `diagNode` and `processTopology` -/

theorem diagNode_ext_address (L : String) (tm : List MatterDevice) (ti ri : Nat)
    (d : DiagRecord) : (diagNode L tm ti ri d).ext_address = extAddrD d := rfl

theorem diagNode_child_count (L : String) (tm : List MatterDevice) (ti ri : Nat)
    (d : DiagRecord) :
    (diagNode L tm ti ri d).child_count = (diagNode L tm ti ri d).children.length := rfl

theorem diagNode_children (L : String) (tm : List MatterDevice) (ti ri : Nat)
    (d : DiagRecord) :
    (diagNode L tm ti ri d).children =
      (processChildren (d.Rloc16.getD 0) tm ti (d.ChildTable.getD [])).1 := rfl

theorem diagNode_link_quality (L : String) (tm : List MatterDevice) (ti ri : Nat)
    (d : DiagRecord) :
    (diagNode L tm ti ri d).link_quality =
      computeLinkQuality ((d.Connectivity.getD ⟨none, none, none, none⟩).LinkQuality3.getD 0)
        ((d.Connectivity.getD ⟨none, none, none, none⟩).LinkQuality2.getD 0)
        ((d.Connectivity.getD ⟨none, none, none, none⟩).LinkQuality1.getD 0) := rfl

theorem diagNode_connections (L : String) (tm : List MatterDevice) (ti ri : Nat)
    (d : DiagRecord) :
    (diagNode L tm ti ri d).connections =
      processRoute ((d.Route.getD ⟨none⟩).RouteData.getD []) := rfl

theorem diagNode_role_leader_iff (L : String) (tm : List MatterDevice) (ti ri : Nat)
    (d : DiagRecord) :
    (diagNode L tm ti ri d).role = "leader" ↔ extAddrD d = L := by
  by_cases h : extAddrD d = L
  · simp [diagNode, h]
  · simp only [diagNode, h, decide_False, Bool.false_eq_true, if_false, iff_false]
    intro hr
    split at hr <;> exact absurd hr (by decide)

theorem processTopology_nodes (nd : NodeData) (ds : List DiagRecord)
    (md : List MatterDevice) (tr : List KnownRouter) :
    (processTopology nd ds md tr).nodes =
      (ds.foldl
        (processDiag (nd.ExtAddress.getD "")
          (md.filter fun dv => dv.transport = "thread")) ([], 0, 0)).1 := rfl

/-! ## Fold invariants over the diagnostics loop -/

/-- Any per-entry property holding for the initial map and for every node the
loop can insert holds for every entry of the final map. -/
theorem foldl_processDiag_mem {L : String} {tm : List MatterDevice}
    {Q : String × TopologyNode → Prop}
    (hQ : ∀ ti ri d, Q (extAddrD d, diagNode L tm ti ri d)) :
    ∀ (ds : List DiagRecord) (st : BuildState), (∀ p ∈ st.1, Q p) →
      ∀ p ∈ (ds.foldl (processDiag L tm) st).1, Q p := by
  intro ds
  induction ds with
  | nil => exact fun st h p hp => h p hp
  | cons d ds ih =>
    intro st h p hp
    refine ih (processDiag L tm st d) ?_ p hp
    intro q hq
    rcases mem_dictInsert hq with h1 | h2
    · rw [h1]; exact hQ st.2.1 st.2.2 d
    · exact h q h2

/-- Every entry of the final map either was in the initial map or is the
node built from one of the processed diagnostic records. -/
theorem foldl_processDiag_provenance {L : String} {tm : List MatterDevice} :
    ∀ (ds : List DiagRecord) (st : BuildState) (p : String × TopologyNode),
      p ∈ (ds.foldl (processDiag L tm) st).1 →
      p ∈ st.1 ∨ ∃ d ∈ ds, ∃ ti ri, p = (extAddrD d, diagNode L tm ti ri d) := by
  intro ds
  induction ds with
  | nil => exact fun st p hp => Or.inl hp
  | cons d ds ih =>
    intro st p hp
    rcases ih (processDiag L tm st d) p hp with h1 | h2
    · rcases mem_dictInsert h1 with he | hm
      · exact Or.inr ⟨d, List.mem_cons_self d ds, st.2.1, st.2.2, he⟩
      · exact Or.inl hm
    · rcases h2 with ⟨d', hd', ti, ri, he⟩
      exact Or.inr ⟨d', List.mem_cons_of_mem d hd', ti, ri, he⟩

/-- Key membership in the final map: an initial key, or the defaulted
address of one of the processed records. -/
theorem foldl_processDiag_keys {L : String} {tm : List MatterDevice} :
    ∀ (ds : List DiagRecord) (st : BuildState) (x : String),
      x ∈ keysOf (ds.foldl (processDiag L tm) st).1 ↔
        x ∈ keysOf st.1 ∨ ∃ d ∈ ds, extAddrD d = x := by
  intro ds
  induction ds with
  | nil => simp
  | cons d ds ih =>
    intro st x
    rw [List.foldl_cons, ih]
    constructor
    · rintro (h1 | h2)
      · rcases keysOf_dictInsert_mem.mp h1 with hm | he
        · exact Or.inl hm
        · exact Or.inr ⟨d, List.mem_cons_self d ds, he.symm⟩
      · rcases h2 with ⟨d', hd', he⟩
        exact Or.inr ⟨d', List.mem_cons_of_mem d hd', he⟩
    · rintro (h1 | ⟨d', hd', he⟩)
      · exact Or.inl (keysOf_dictInsert_mem.mpr (Or.inl h1))
      · rcases List.mem_cons.mp hd' with h | h
        · exact Or.inl (keysOf_dictInsert_mem.mpr (Or.inr (by rw [← he, h])))
        · exact Or.inr ⟨d', h, he⟩

/-- The loop preserves key uniqueness of the map. -/
theorem foldl_processDiag_nodup {L : String} {tm : List MatterDevice} :
    ∀ (ds : List DiagRecord) (st : BuildState), (keysOf st.1).Nodup →
      (keysOf (ds.foldl (processDiag L tm) st).1).Nodup := by
  intro ds
  induction ds with
  | nil => exact fun st h => h
  | cons d ds ih =>
    intro st h
    exact ih (processDiag L tm st d) (keysOf_dictInsert_nodup h)

/-! ## The shared Matter-device pool -/

/-- The matched-device slots of the children produced for one `ChildTable`:
the `j`-th child consumes pool entry `idx + j` when it exists, `none`
otherwise. -/
theorem processChildren_matched (rloc : Nat) (tm : List MatterDevice) :
    ∀ (cs : List ChildEntry) (idx : Nat),
      ((processChildren rloc tm idx cs).1.map fun c => c.matched) =
        (List.range cs.length).map fun j => tm[idx + j]? := by
  intro cs
  induction cs with
  | nil => intro idx; rfl
  | cons c cs ih =>
    intro idx
    rw [processChildren, List.length_cons, List.range_succ_eq_map, List.map_cons,
      List.map_cons, List.map_map]
    by_cases h : idx < tm.length
    · have h1 : (processChild rloc tm idx c).1.matched = tm[idx + 0]? := by
        simp [processChild, h, List.getElem?_eq_getElem h]
      have h2 : (processChild rloc tm idx c).2 = idx + 1 := by
        simp [processChild, h]
      rw [h1, h2, ih (idx + 1)]
      congr 1
      refine List.map_congr_left ?_
      intro j _
      simp only [Function.comp_apply, Nat.succ_eq_add_one]
      congr 1
      omega
    · have hle : tm.length ≤ idx := Nat.le_of_not_lt h
      have h1 : (processChild rloc tm idx c).1.matched = tm[idx + 0]? := by
        rw [List.getElem?_eq_none (by omega : tm.length ≤ idx + 0)]
        simp [processChild, h]
      have h2 : (processChild rloc tm idx c).2 = idx := by
        simp [processChild, h]
      rw [h1, h2, ih idx]
      congr 1
      refine List.map_congr_left ?_
      intro j _
      simp only [Function.comp_apply, Nat.succ_eq_add_one]
      rw [List.getElem?_eq_none (by omega : tm.length ≤ idx + j),
        List.getElem?_eq_none (by omega : tm.length ≤ idx + (j + 1))]

/-- The pool cursor after one `ChildTable`: it advances by one per child but
never beyond the end of the pool (nor backwards). -/
theorem processChildren_idx (rloc : Nat) (tm : List MatterDevice) :
    ∀ (cs : List ChildEntry) (idx : Nat),
      (processChildren rloc tm idx cs).2 = min (idx + cs.length) (max idx tm.length) := by
  intro cs
  induction cs with
  | nil => intro idx; simp [processChildren]
  | cons c cs ih =>
    intro idx
    rw [processChildren]
    by_cases h : idx < tm.length
    · have h2 : (processChild rloc tm idx c).2 = idx + 1 := by
        simp [processChild, h]
      rw [h2, ih (idx + 1)]
      simp only [List.length_cons]
      omega
    · have h2 : (processChild rloc tm idx c).2 = idx := by
        simp [processChild, h]
      rw [h2, ih idx]
      simp only [List.length_cons]
      omega

/-- One `ChildTable` produces one child per entry. -/
theorem processChildren_length (rloc : Nat) (tm : List MatterDevice)
    (cs : List ChildEntry) (idx : Nat) :
    (processChildren rloc tm idx cs).1.length = cs.length := by
  have := congrArg List.length (processChildren_matched rloc tm cs idx)
  simpa using this

/-- The matched-device slots of the whole node map, in map order, children
flattened. -/
def matchedOf (m : List (String × TopologyNode)) : List (Option MatterDevice) :=
  (m.map fun p => p.2.children.map fun c => c.matched).flatten

/-- The number of child entries of a diagnostics list. -/
def numChildren (ds : List DiagRecord) : Nat :=
  (ds.map fun d => (d.ChildTable.getD []).length).sum

theorem matchedOf_append (m₁ m₂ : List (String × TopologyNode)) :
    matchedOf (m₁ ++ m₂) = matchedOf m₁ ++ matchedOf m₂ := by
  simp [matchedOf]

/-- The matching pool is consumed first-come first-served in
diagnostic/child traversal order: as long as the record addresses are
distinct, processing `ds` from cursor `ti` appends exactly the slots
`tm[ti]?, tm[ti+1]?, …` for its children. -/
theorem matchedOf_foldl {L : String} {tm : List MatterDevice} :
    ∀ (ds : List DiagRecord) (ns : List (String × TopologyNode)) (ti ri : Nat),
      (∀ d ∈ ds, extAddrD d ∉ keysOf ns) →
      (ds.map extAddrD).Nodup →
      ti ≤ tm.length →
      matchedOf (ds.foldl (processDiag L tm) (ns, ti, ri)).1 =
        matchedOf ns ++ (List.range (numChildren ds)).map fun k => tm[ti + k]? := by
  intro ds
  induction ds with
  | nil =>
    intro ns ti ri _ _ _
    simp [numChildren]
  | cons d ds ih =>
    intro ns ti ri hdisj hnd hti
    have hdk : extAddrD d ∉ keysOf ns := hdisj d (List.mem_cons_self d ds)
    have hstep : (processDiag L tm (ns, ti, ri) d).1 =
        ns ++ [(extAddrD d, diagNode L tm ti ri d)] := dictInsert_of_not_mem hdk
    set nd := (d.ChildTable.getD []).length with hnd_def
    have hkeys : keysOf (ns ++ [(extAddrD d, diagNode L tm ti ri d)]) =
        keysOf ns ++ [extAddrD d] := by
      rw [keysOf_append]; rfl
    have hchild : (diagNode L tm ti ri d).children.map (fun c => c.matched) =
        (List.range nd).map fun j => tm[ti + j]? := by
      rw [diagNode_children]
      exact processChildren_matched _ tm _ ti
    have hti' : diagThreadIdx tm ti d = min (ti + nd) tm.length := by
      rw [diagThreadIdx, processChildren_idx]
      omega
    have hdisj' : ∀ d' ∈ ds, extAddrD d' ∉ keysOf
        (ns ++ [(extAddrD d, diagNode L tm ti ri d)]) := by
      intro d' hd'
      rw [hkeys]
      intro hmem
      rcases List.mem_append.mp hmem with h1 | h1
      · exact hdisj d' (List.mem_cons_of_mem d hd') h1
      · rw [List.mem_singleton] at h1
        have : extAddrD d ∈ ds.map extAddrD := List.mem_map.mpr ⟨d', hd', h1⟩
        exact (List.nodup_cons.mp hnd).1 this
    have hnd' : (ds.map extAddrD).Nodup := (List.nodup_cons.mp hnd).2
    have hti'le : diagThreadIdx tm ti d ≤ tm.length := by
      rw [hti']; omega
    have hrec := ih (ns ++ [(extAddrD d, diagNode L tm ti ri d)])
      (diagThreadIdx tm ti d) (diagRouterIdx L ri d) hdisj' hnd' hti'le
    rw [List.foldl_cons]
    have hpd : processDiag L tm (ns, ti, ri) d =
        (ns ++ [(extAddrD d, diagNode L tm ti ri d)],
          diagThreadIdx tm ti d, diagRouterIdx L ri d) := by
      rw [processDiag]
      exact congrArg (fun m => (m, diagThreadIdx tm ti d, diagRouterIdx L ri d)) hstep
    rw [hpd, hrec, matchedOf_append]
    have hsingle : matchedOf [(extAddrD d, diagNode L tm ti ri d)] =
        (List.range nd).map fun j => tm[ti + j]? := by
      rw [matchedOf]
      simp only [List.map_cons, List.map_nil, List.flatten_cons, List.flatten_nil,
        List.append_nil]
      exact hchild
    rw [hsingle]
    have hnum : numChildren (d :: ds) = nd + numChildren ds := by
      simp [numChildren, hnd_def]
    rw [hnum, List.range_add, List.map_append, List.map_map, List.append_assoc]
    congr 1
    congr 1
    refine List.map_congr_left ?_
    intro k _
    simp only [Function.comp_apply]
    by_cases hfit : ti + nd ≤ tm.length
    · have : diagThreadIdx tm ti d = ti + nd := by rw [hti']; omega
      rw [this]
      congr 1
      omega
    · have hcur : diagThreadIdx tm ti d = tm.length := by rw [hti']; omega
      rw [hcur, List.getElem?_eq_none (by omega : tm.length ≤ tm.length + k),
        List.getElem?_eq_none (by omega : tm.length ≤ ti + (nd + k))]

/-! ## Counting leader-role entries -/

theorem keysOf_cons (p : String × TopologyNode) (m : List (String × TopologyNode)) :
    keysOf (p :: m) = p.1 :: keysOf m := rfl

/-- With pointwise leader classification and unique keys, the number of
leader-role entries is one if the leader address is a key, zero otherwise. -/
theorem filter_leader_length {L : String} :
    ∀ (m : List (String × TopologyNode)),
      (∀ p ∈ m, p.2.role = "leader" ↔ p.1 = L) →
      (keysOf m).Nodup →
      (m.filter fun p => p.2.role = "leader").length =
        if L ∈ keysOf m then 1 else 0 := by
  intro m
  induction m with
  | nil => intro _ _; simp [keysOf]
  | cons p m ih =>
    intro hinv hnd
    have hinvm : ∀ q ∈ m, q.2.role = "leader" ↔ q.1 = L :=
      fun q hq => hinv q (List.mem_cons_of_mem p hq)
    rw [keysOf_cons] at hnd
    have hnd' := (List.nodup_cons.mp hnd).2
    have hnotm := (List.nodup_cons.mp hnd).1
    by_cases hp : p.2.role = "leader"
    · have hpL : p.1 = L := (hinv p (List.mem_cons_self p m)).mp hp
      have hLnotm : L ∉ keysOf m := hpL ▸ hnotm
      rw [List.filter_cons_of_pos (by simp [hp]), List.length_cons, ih hinvm hnd',
        if_neg hLnotm, keysOf_cons, if_pos (by rw [hpL]; exact List.mem_cons_self L _)]
    · have hpL : p.1 ≠ L := fun he => hp ((hinv p (List.mem_cons_self p m)).mpr he)
      rw [List.filter_cons_of_neg (by simp [hp]), ih hinvm hnd', keysOf_cons]
      have : (L ∈ p.1 :: keysOf m) ↔ L ∈ keysOf m := by
        rw [List.mem_cons]
        exact ⟨fun h => h.resolve_left fun he => hpL he.symm, Or.inr⟩
      rw [if_congr this rfl rfl]

/-! ## Claim theorems -/

/-- C1: the total device count of every built topology is the number of
entries of the node map plus the sum of their cached child counts. -/
theorem total_devices_eq_nodes_plus_children (nd : NodeData) (ds : List DiagRecord)
    (md : List MatterDevice) (tr : List KnownRouter) :
    (processTopology nd ds md tr).total_devices =
      (processTopology nd ds md tr).nodes.length
        + ((processTopology nd ds md tr).nodes.map fun p => p.2.child_count).sum := rfl

/-- C2: a node's role is `leader` exactly when its hardware address equals
the (defaulted) leader address of the node summary; when the leader address
occurs exactly once among the diagnostic records the topology has exactly
one leader-role node, and when no record's address matches it has none. -/
theorem leader_role_classification (nd : NodeData) (ds : List DiagRecord)
    (md : List MatterDevice) (tr : List KnownRouter) :
    (∀ p ∈ (processTopology nd ds md tr).nodes,
        p.2.role = "leader" ↔ p.2.ext_address = nd.ExtAddress.getD "")
    ∧ (ds.countP (fun d => extAddrD d = nd.ExtAddress.getD "") = 1 →
        ((processTopology nd ds md tr).nodes.filter fun p =>
          p.2.role = "leader").length = 1)
    ∧ ((∀ d ∈ ds, extAddrD d ≠ nd.ExtAddress.getD "") →
        ((processTopology nd ds md tr).nodes.filter fun p =>
          p.2.role = "leader").length = 0) := by
  have hinv : ∀ p ∈ (processTopology nd ds md tr).nodes,
      p.2.ext_address = p.1 ∧ (p.2.role = "leader" ↔ p.1 = nd.ExtAddress.getD "") := by
    rw [processTopology_nodes]
    refine foldl_processDiag_mem ?_ ds ([], 0, 0) (by intro p hp; cases hp)
    intro ti ri d
    exact ⟨diagNode_ext_address _ _ _ _ _, diagNode_role_leader_iff _ _ _ _ _⟩
  have hinv' : ∀ p ∈ (processTopology nd ds md tr).nodes,
      p.2.role = "leader" ↔ p.1 = nd.ExtAddress.getD "" := fun p hp => (hinv p hp).2
  have hnodup : (keysOf (processTopology nd ds md tr).nodes).Nodup := by
    rw [processTopology_nodes]
    exact foldl_processDiag_nodup ds ([], 0, 0) (by simp [keysOf])
  have hkeys : ∀ x, x ∈ keysOf (processTopology nd ds md tr).nodes ↔
      ∃ d ∈ ds, extAddrD d = x := by
    intro x
    rw [processTopology_nodes, foldl_processDiag_keys]
    simp [keysOf]
  refine ⟨?_, ?_, ?_⟩
  · intro p hp
    rw [(hinv p hp).1]
    exact hinv' p hp
  · intro hcount
    rw [filter_leader_length _ hinv' hnodup, if_pos]
    rw [hkeys]
    have : 0 < ds.countP fun d => extAddrD d = nd.ExtAddress.getD "" := by omega
    rcases List.countP_pos_iff.mp this with ⟨d, hd, hpd⟩
    exact ⟨d, hd, of_decide_eq_true hpd⟩
  · intro hnone
    rw [filter_leader_length _ hinv' hnodup, if_neg]
    rw [hkeys]
    rintro ⟨d, hd, he⟩
    exact hnone d hd he

/-- Witness for C2 at a concrete input: a two-record diagnostics list whose
first record carries the leader address yields exactly one leader node. -/
theorem leader_role_classification_witness :
    ((processTopology ⟨some "X", none, none, none⟩
      [⟨some "X", none, none, none, none, none, none⟩,
       ⟨some "Y", none, none, none, none, none, none⟩] [] []).nodes.filter fun p =>
        p.2.role = "leader").length = 1 :=
  (leader_role_classification ⟨some "X", none, none, none⟩
    [⟨some "X", none, none, none, none, none, none⟩,
     ⟨some "Y", none, none, none, none, none, none⟩] [] []).2.1 (by decide)

/-- C9: when the node summary and a diagnostic record both omit their
hardware address, both default to the empty string, so that record is
classified as the leader and is stored under the empty-string key. -/
theorem missing_addresses_default_to_leader (nd : NodeData) (ds : List DiagRecord)
    (md : List MatterDevice) (tr : List KnownRouter) (d : DiagRecord)
    (hnd : nd.ExtAddress = none) (hd : d ∈ ds) (hde : d.ExtAddress = none) :
    ∃ v, ("", v) ∈ (processTopology nd ds md tr).nodes
      ∧ v.role = "leader" ∧ v.ext_address = "" := by
  have hL : nd.ExtAddress.getD "" = "" := by rw [hnd]; rfl
  have hdL : extAddrD d = "" := by rw [extAddrD, hde]; rfl
  have hmem : "" ∈ keysOf (processTopology nd ds md tr).nodes := by
    rw [processTopology_nodes, foldl_processDiag_keys]
    exact Or.inr ⟨d, hd, hdL⟩
  rcases exists_of_mem_keysOf hmem with ⟨v, hv⟩
  have hinv : ∀ p ∈ (processTopology nd ds md tr).nodes,
      p.2.ext_address = p.1 ∧ (p.2.role = "leader" ↔ p.1 = nd.ExtAddress.getD "") := by
    rw [processTopology_nodes]
    refine foldl_processDiag_mem ?_ ds ([], 0, 0) (by intro p hp; cases hp)
    intro ti ri d'
    exact ⟨diagNode_ext_address _ _ _ _ _, diagNode_role_leader_iff _ _ _ _ _⟩
  have h1 := hinv ("", v) hv
  refine ⟨v, hv, ?_, h1.1⟩
  exact h1.2.mpr (by rw [hL])

/-- Witness for C9 at a concrete input. -/
theorem missing_addresses_default_to_leader_witness :
    ∃ v, ("", v) ∈ (processTopology ⟨none, none, none, none⟩
        [⟨none, none, none, none, none, none, none⟩] [] []).nodes
      ∧ v.role = "leader" ∧ v.ext_address = "" :=
  missing_addresses_default_to_leader ⟨none, none, none, none⟩
    [⟨none, none, none, none, none, none, none⟩] [] []
    ⟨none, none, none, none, none, none, none⟩ rfl (List.mem_singleton.mpr rfl) rfl

/-- A record's defaulted `Connectivity` object. -/
def connD (d : DiagRecord) : Connectivity :=
  d.Connectivity.getD ⟨none, none, none, none⟩

/-- A record's defaulted `Route.RouteData` list. -/
def routeDataD (d : DiagRecord) : List RouteEntry :=
  (d.Route.getD ⟨none⟩).RouteData.getD []

/-- The spec-side reading of the link-quality reduction: `q` is the highest
tier index whose counter is greater than zero, or 0 when all are zero. -/
def HighestNonzeroTier (lq3 lq2 lq1 q : Nat) : Prop :=
  (q = 3 ∧ 0 < lq3)
  ∨ (q = 2 ∧ lq3 = 0 ∧ 0 < lq2)
  ∨ (q = 1 ∧ lq3 = 0 ∧ lq2 = 0 ∧ 0 < lq1)
  ∨ (q = 0 ∧ lq3 = 0 ∧ lq2 = 0 ∧ lq1 = 0)

theorem computeLinkQuality_spec (lq3 lq2 lq1 : Nat) :
    HighestNonzeroTier lq3 lq2 lq1 (computeLinkQuality lq3 lq2 lq1) := by
  unfold computeLinkQuality HighestNonzeroTier
  split_ifs <;> omega

/-- C3: every node's `link_quality` is the link-quality reduction of the
defaulted counters of a diagnostic record with its address, and that
reduction picks the highest tier whose counter is positive (0 when all are
zero); the four concrete reductions of the claim. -/
theorem link_quality_reduction (nd : NodeData) (ds : List DiagRecord)
    (md : List MatterDevice) (tr : List KnownRouter) :
    (∀ p ∈ (processTopology nd ds md tr).nodes, ∃ d ∈ ds,
        p.1 = extAddrD d
        ∧ p.2.link_quality = computeLinkQuality ((connD d).LinkQuality3.getD 0)
            ((connD d).LinkQuality2.getD 0) ((connD d).LinkQuality1.getD 0)
        ∧ HighestNonzeroTier ((connD d).LinkQuality3.getD 0)
            ((connD d).LinkQuality2.getD 0) ((connD d).LinkQuality1.getD 0)
            p.2.link_quality)
    ∧ computeLinkQuality 1 1 1 = 3 ∧ computeLinkQuality 0 1 1 = 2
    ∧ computeLinkQuality 0 0 1 = 1 ∧ computeLinkQuality 0 0 0 = 0 := by
  refine ⟨?_, rfl, rfl, rfl, rfl⟩
  intro p hp
  rw [processTopology_nodes] at hp
  rcases foldl_processDiag_provenance ds ([], 0, 0) p hp with h | ⟨d, hd, ti, ri, he⟩
  · cases h
  · refine ⟨d, hd, ?_, ?_, ?_⟩
    · rw [he]
    · rw [he]
      exact diagNode_link_quality _ _ _ _ _
    · rw [he, diagNode_link_quality]
      exact computeLinkQuality_spec _ _ _

/-- Witness for C3 at a concrete input. -/
theorem link_quality_reduction_witness :
    ∃ d ∈ [(⟨some "A", none, none, some ⟨none, some 0, some 2, some 5⟩, none, none,
        none⟩ : DiagRecord)],
      ("A", (diagNode "X" [] 0 0 ⟨some "A", none, none,
          some ⟨none, some 0, some 2, some 5⟩, none, none, none⟩)).1 = extAddrD d
      ∧ ("A", (diagNode "X" [] 0 0 ⟨some "A", none, none,
          some ⟨none, some 0, some 2, some 5⟩, none, none, none⟩)).2.link_quality =
          computeLinkQuality ((connD d).LinkQuality3.getD 0)
            ((connD d).LinkQuality2.getD 0) ((connD d).LinkQuality1.getD 0)
      ∧ HighestNonzeroTier ((connD d).LinkQuality3.getD 0)
          ((connD d).LinkQuality2.getD 0) ((connD d).LinkQuality1.getD 0)
          ("A", (diagNode "X" [] 0 0 ⟨some "A", none, none,
            some ⟨none, some 0, some 2, some 5⟩, none, none, none⟩)).2.link_quality :=
  (link_quality_reduction ⟨some "X", none, none, none⟩
    [⟨some "A", none, none, some ⟨none, some 0, some 2, some 5⟩, none, none, none⟩]
    [] []).1 _ (by decide)

/-- The connection built from a kept route entry (coordinator.py 372-377). -/
def convRoute (rd : RouteEntry) : Connection :=
  ⟨rd.RouteId.getD 0, rd.LinkQualityOut.getD 0, rd.LinkQualityIn.getD 0,
    rd.RouteCost.getD 0⟩

theorem processRoute_filter_map (rds : List RouteEntry) :
    processRoute rds =
      (rds.filter fun rd => rd.RouteCost.getD 255 < 255).map convRoute := by
  induction rds with
  | nil => rfl
  | cons rd rds ih =>
    by_cases h : rd.RouteCost.getD 255 < 255
    · rw [processRoute, if_pos h, List.filter_cons_of_pos (by simpa using h),
        List.map_cons, ih]
      rfl
    · rw [processRoute, if_neg h, List.filter_cons_of_neg (by simpa using h), ih]

/-- C7: every node's connections come from the route data of a record with
its address via the filtering map; an entry whose cost is 255 or absent is
dropped, and an entry with cost below 255 is kept with peer id, out/in link
quality and cost carried through unmodified. -/
theorem route_filtering (nd : NodeData) (ds : List DiagRecord)
    (md : List MatterDevice) (tr : List KnownRouter) :
    (∀ p ∈ (processTopology nd ds md tr).nodes, ∃ d ∈ ds,
        p.1 = extAddrD d ∧ p.2.connections = processRoute (routeDataD d))
    ∧ (∀ rds : List RouteEntry, processRoute rds =
        (rds.filter fun rd => rd.RouteCost.getD 255 < 255).map convRoute)
    ∧ (∀ rd : RouteEntry, rd.RouteCost = none ∨ rd.RouteCost = some 255 →
        processRoute [rd] = [])
    ∧ (∀ i o n c : Nat, c < 255 →
        processRoute [⟨some i, some o, some n, some c⟩] = [⟨i, o, n, c⟩]) := by
  refine ⟨?_, processRoute_filter_map, ?_, ?_⟩
  · intro p hp
    rw [processTopology_nodes] at hp
    rcases foldl_processDiag_provenance ds ([], 0, 0) p hp with h | ⟨d, hd, ti, ri, he⟩
    · cases h
    · refine ⟨d, hd, ?_, ?_⟩
      · rw [he]
      · rw [he]
        exact diagNode_connections _ _ _ _ _
  · rintro rd (h | h) <;>
      simp [processRoute, h]
  · intro i o n c hc
    simp [processRoute, hc, convRoute]

/-- Witness for C7 at a concrete input: cost 255 dropped, cost 254 kept
with its link-quality values. -/
theorem route_filtering_witness :
    processRoute [⟨some 7, some 1, some 2, some 255⟩] = []
    ∧ processRoute [⟨some 7, some 1, some 2, some 254⟩] = [⟨7, 1, 2, 254⟩] :=
  ⟨(route_filtering ⟨none, none, none, none⟩ [] [] []).2.2.1
      ⟨some 7, some 1, some 2, some 255⟩ (Or.inr rfl),
    (route_filtering ⟨none, none, none, none⟩ [] [] []).2.2.2 7 1 2 254 (by omega)⟩

/-- C4: with pairwise-distinct record addresses, the matched-device slots of
the built topology, flattened in diagnostic/child traversal order, are
exactly the pool entries `tm[0], tm[1], …` — so each pool entry is consumed
by at most one child, first-come first-served, and every child beyond the
pool length carries no attached device (and the build still succeeds). -/
theorem device_matching_pool (nd : NodeData) (ds : List DiagRecord)
    (md : List MatterDevice) (tr : List KnownRouter)
    (hnd : (ds.map extAddrD).Nodup) :
    matchedOf (processTopology nd ds md tr).nodes =
      ((List.range (numChildren ds)).map fun k =>
        (md.filter fun dv => dv.transport = "thread")[k]?)
    ∧ ∀ k, (md.filter fun dv => dv.transport = "thread").length ≤ k →
        k < numChildren ds →
        (matchedOf (processTopology nd ds md tr).nodes)[k]? = some none := by
  have hmain : matchedOf (processTopology nd ds md tr).nodes =
      ((List.range (numChildren ds)).map fun k =>
        (md.filter fun dv => dv.transport = "thread")[k]?) := by
    rw [processTopology_nodes,
      matchedOf_foldl ds [] 0 0 (by intro d _ h; cases h) hnd (Nat.zero_le _)]
    simp [matchedOf]
  refine ⟨hmain, ?_⟩
  intro k hk hkn
  rw [hmain, List.getElem?_map, List.getElem?_range hkn]
  simp only [Option.map_some']
  rw [List.getElem?_eq_none hk]

/-- Witness for C4 at a concrete input: two records, three children, a pool
of two Thread devices — matched in order, third child unmatched. -/
theorem device_matching_pool_witness :
    matchedOf (processTopology ⟨some "X", none, none, none⟩
      [⟨some "A", none, none, none,
          some [⟨some 1, none, none⟩, ⟨some 2, none, none⟩], none, none⟩,
       ⟨some "B", none, none, none, some [⟨some 3, none, none⟩], none, none⟩]
      [⟨"D1", "M1", "V1", "thread"⟩, ⟨"D2", "M2", "V2", "thread"⟩,
       ⟨"W", "MW", "VW", "wifi"⟩] []).nodes =
      [some ⟨"D1", "M1", "V1", "thread"⟩, some ⟨"D2", "M2", "V2", "thread"⟩, none] := by
  have h := (device_matching_pool ⟨some "X", none, none, none⟩
    [⟨some "A", none, none, none,
        some [⟨some 1, none, none⟩, ⟨some 2, none, none⟩], none, none⟩,
     ⟨some "B", none, none, none, some [⟨some 3, none, none⟩], none, none⟩]
    [⟨"D1", "M1", "V1", "thread"⟩, ⟨"D2", "M2", "V2", "thread"⟩,
     ⟨"W", "MW", "VW", "wifi"⟩] [] (by decide)).1
  rw [h]
  decide

/-! ## C5: totality and defaulting -/

/-- Structural validity of a built topology: the cached aggregate count and
per-node child counts are consistent, nodes are keyed by their own address,
and keys are unique. -/
def structurallyValid (t : Topology) : Prop :=
  t.total_devices = t.nodes.length + (t.nodes.map fun p => p.2.child_count).sum
  ∧ (∀ p ∈ t.nodes, p.2.child_count = p.2.children.length ∧ p.2.ext_address = p.1)
  ∧ (keysOf t.nodes).Nodup

/-- Counterexample to C5 as stated: with `NetworkName` absent the builder
defaults the network name to `"Unknown"`, which is neither the empty string
nor `"unknown"`; and a route entry with an absent cost is dropped rather
than kept with a defaulted cost of 0. -/
theorem claimed_default_list_fails :
    (processTopology ⟨none, none, none, none⟩ [] [] []).network_name = "Unknown"
    ∧ (processTopology ⟨none, none, none, none⟩ [] [] []).network_name ≠ ""
    ∧ (processTopology ⟨none, none, none, none⟩ [] [] []).network_name ≠ "unknown"
    ∧ ((processTopology ⟨none, none, none, none⟩
        [⟨some "A", none, none, none, none,
          some ⟨some [⟨some 1, some 2, some 3, none⟩]⟩, none⟩] [] []).nodes.map
            fun p => p.2.connections) = [[]] := by
  refine ⟨rfl, ?_, ?_, ?_⟩ <;> decide

/-- C5 (amended): the builder is total — every input yields a structurally
valid topology — and absent fields take the code's documented defaults:
empty string, 0, empty list, `"unknown"` for the state, `"Unknown"` for the
network name, while an absent route cost counts as 255 (entry excluded) and
an absent child idle-receive flag counts as 1 (child active). -/
theorem builder_total_with_defaults (nd : NodeData) (ds : List DiagRecord)
    (md : List MatterDevice) (tr : List KnownRouter) :
    structurallyValid (processTopology nd ds md tr)
    ∧ processTopology ⟨none, none, none, none⟩ [] [] [] =
        { network_name := "Unknown", state := "unknown", leader_address := "",
          router_count := 0, nodes := [], total_devices := 0,
          matter_devices := ⟨[], [], 0⟩, known_routers := [] }
    ∧ (processTopology ⟨none, none, none, none⟩
        [⟨none, none, none, none, none, none, none⟩] [] []).nodes =
        [("", ⟨"", 0, "leader", "SkyConnect (OTBR)", "Nabu Casa", "border_router",
          "home-assistant", 0, 0, [], 0, [], []⟩)]
    ∧ (processChild 0 [] 0 ⟨none, none, none⟩).1 =
        ⟨0, "active", 0, 0, none⟩ := by
  refine ⟨⟨rfl, ?_, ?_⟩, by decide, by decide, by decide⟩
  · intro p hp
    rw [processTopology_nodes] at hp
    have := foldl_processDiag_mem (Q := fun p =>
        p.2.child_count = p.2.children.length ∧ p.2.ext_address = p.1)
      (fun ti ri d => ⟨diagNode_child_count _ _ ti ri d, diagNode_ext_address _ _ ti ri d⟩)
      ds ([], 0, 0) (by intro q hq; cases hq) p hp
    exact this
  · rw [processTopology_nodes]
    exact foldl_processDiag_nodup ds ([], 0, 0) (by simp [keysOf])

/-! ## C6: cyclic generic fallback of `_identify_router` -/

theorem lookup_eq_none_of_no_key (l : List (String × OUIInfo)) (k : String)
    (h : ∀ e ∈ l, e.1 ≠ k) : l.lookup k = none := by
  induction l with
  | nil => rfl
  | cons e l ih =>
    obtain ⟨a, b⟩ := e
    have hak : (k == a) = false := by
      rw [beq_eq_false_iff_ne]
      exact fun he => h (a, b) (List.mem_cons_self _ l) he.symm
    rw [List.lookup_cons, hak]
    exact ih fun e' he' => h e' (List.mem_cons_of_mem (a, b) he')

/-- C6: for a non-leader call whose uppercased address matches no entry of
the OUI table (under either derived format) and contains no fallback
pattern, `_identify_router` returns the generic identity cycled by
`router_index % len(router_names)`, appending `" #{router_index + 1}"` to
the name exactly when `router_index > 0`. -/
theorem generic_fallback_identity (ext : String) (ri : Nat)
    (hno_oui : ∀ e ∈ knownBorderRouterOUIs,
        e.1 ≠ ouiFormat1 (upperStr ext).toList
        ∧ e.1 ≠ ouiFormat2 (upperStr ext).toList)
    (hno_pat : ∀ p ∈ borderRouterPatterns,
        hasSubstr p.1.toList (upperStr ext).toList = false) :
    identifyRouter ext false ri =
      ⟨if ri > 0 then
          (routerNames.getD (ri % routerNames.length) ("Thread Router", "Unknown")).1
            ++ " #" ++ toString (ri + 1)
        else (routerNames.getD (ri % routerNames.length) ("Thread Router", "Unknown")).1,
        (routerNames.getD (ri % routerNames.length) ("Thread Router", "Unknown")).2,
        "border_router", "router"⟩ := by
  have hl1 : knownBorderRouterOUIs.lookup (ouiFormat1 (upperStr ext).toList) = none :=
    lookup_eq_none_of_no_key _ _ fun e he => (hno_oui e he).1
  have hl2 : knownBorderRouterOUIs.lookup (ouiFormat2 (upperStr ext).toList) = none :=
    lookup_eq_none_of_no_key _ _ fun e he => (hno_oui e he).2
  have hfind : borderRouterPatterns.find?
      (fun p => hasSubstr p.1.toList (upperStr ext).toList) = none :=
    List.find?_eq_none.mpr fun p hp => by rw [hno_pat p hp]; exact Bool.false_ne_true
  rw [identifyRouter]
  simp only [Bool.false_eq_true, if_false]
  by_cases hlen : 6 ≤ (upperStr ext).toList.length
  · simp only [hlen, if_pos, hl1, hl2, hfind]
  · simp only [hlen, if_neg, if_false, hfind]

/-- Witness for C6: an unknown address at router index 1 gets the second
generic identity with the `#2` suffix. -/
theorem generic_fallback_identity_witness :
    identifyRouter "0011223344556677" false 1 =
      ⟨"Google Nest #2", "Google", "border_router", "router"⟩ := by
  have h := generic_fallback_identity "0011223344556677" 1 (by decide) (by decide)
  rw [h]
  decide

/-! ## C8: router-row layout spacing -/

/-- A topology whose reported router count (5, from `NumOfRouter`) differs
from the number of router-role nodes in its map (1). -/
def spacingTopology : Topology :=
  processTopology ⟨some "X", none, some 5, none⟩
    [⟨some "AB", none, some ⟨some 1, none⟩, none, none, none, none⟩] [] []

/-- Counterexample to C8 as stated: the renderer's spacing uses the number
of router-role nodes, not the topology's reported `router_count`. -/
theorem spacing_uses_router_nodes_not_count :
    spacingTopology.router_count = 5
    ∧ routerSpacing spacingTopology = some 200
    ∧ routerSpacing spacingTopology ≠
        some (min 200 (600 / (spacingTopology.router_count + 1))) := by
  refine ⟨rfl, ?_, ?_⟩ <;> decide

/-- C8 (amended): when the node map contains `n > 0` router-role nodes, the
renderer lays the router row out with even spacing
`min 200 (600 / (n + 1))`: that is the spacing value, the row has one
position per router at `y = 340`, and consecutive x-coordinates differ by
exactly that spacing. -/
theorem router_row_even_spacing (t : Topology) (n : Nat)
    (hn : n = (svgRouters t).length) (hpos : 0 < n) :
    routerSpacing t = some (min 200 (600 / (n + 1)))
    ∧ (routerPositions t).length = n
    ∧ (∀ i, i < n → ((routerPositions t).getD i (0, 0)).2 = 340)
    ∧ (∀ i, i + 1 < n →
        ((routerPositions t).getD (i + 1) (0, 0)).1
          - ((routerPositions t).getD i (0, 0)).1 = min 200 (600 / (n + 1))) := by
  subst hn
  have hgt : (svgRouters t).length > 0 := hpos
  have hpositions : routerPositions t =
      (List.range (svgRouters t).length).map fun i =>
        (400 - ((svgRouters t).length - 1) * min 200 (600 / ((svgRouters t).length + 1)) / 2
          + i * min 200 (600 / ((svgRouters t).length + 1)), 340) := by
    rw [routerPositions, if_pos hgt]
  have hgetD : ∀ i, i < (svgRouters t).length →
      (routerPositions t).getD i (0, 0) =
        (400 - ((svgRouters t).length - 1) * min 200 (600 / ((svgRouters t).length + 1)) / 2
          + i * min 200 (600 / ((svgRouters t).length + 1)), 340) := by
    intro i hi
    rw [hpositions, List.getD_eq_getElem?_getD, List.getElem?_map,
      List.getElem?_range hi]
    rfl
  refine ⟨?_, ?_, ?_, ?_⟩
  · rw [routerSpacing, if_pos hgt]
  · rw [hpositions, List.length_map, List.length_range]
  · intro i hi
    rw [hgetD i hi]
  · intro i hi
    rw [hgetD (i + 1) hi, hgetD i (by omega)]
    have harith :
        400 - ((svgRouters t).length - 1) * min 200 (600 / ((svgRouters t).length + 1)) / 2
            + (i + 1) * min 200 (600 / ((svgRouters t).length + 1)) =
          (400 - ((svgRouters t).length - 1)
                * min 200 (600 / ((svgRouters t).length + 1)) / 2
              + i * min 200 (600 / ((svgRouters t).length + 1)))
            + min 200 (600 / ((svgRouters t).length + 1)) := by
      ring
    rw [harith]
    exact Nat.add_sub_cancel_left _ _

/-- Witness for C8 (amended) at the concrete one-router topology. -/
theorem router_row_even_spacing_witness :
    routerSpacing spacingTopology = some 200
    ∧ (routerPositions spacingTopology).length = 1 := by
  have h := router_row_even_spacing spacingTopology 1 (by decide) (by decide)
  exact ⟨by rw [h.1]; decide, h.2.1⟩

/-! ## C10: device-inventory summary partition -/

theorem filter_transport_partition (l : List MatterDevice)
    (h : ∀ dv ∈ l, dv.transport = "thread" ∨ dv.transport = "wifi") :
    (l.filter fun dv => dv.transport = "thread").length
      + (l.filter fun dv => dv.transport = "wifi").length = l.length := by
  induction l with
  | nil => rfl
  | cons dv l ih =>
    have hrest := ih fun d hd => h d (List.mem_cons_of_mem dv hd)
    rcases h dv (List.mem_cons_self dv l) with h1 | h1
    · rw [List.filter_cons_of_pos (by simp [h1]),
        List.filter_cons_of_neg (by rw [h1]; decide), List.length_cons,
        List.length_cons]
      omega
    · rw [List.filter_cons_of_neg (by rw [h1]; decide),
        List.filter_cons_of_pos (by simp [h1]), List.length_cons,
        List.length_cons]
      omega

/-- C10: when every paired device's transport is `"thread"` or `"wifi"`,
the device-inventory summary partitions the input: thread-list length plus
wifi-list length equals the reported total, which equals the input length. -/
theorem matter_summary_partition (nd : NodeData) (ds : List DiagRecord)
    (md : List MatterDevice) (tr : List KnownRouter)
    (h : ∀ dv ∈ md, dv.transport = "thread" ∨ dv.transport = "wifi") :
    (processTopology nd ds md tr).matter_devices.thread.length
        + (processTopology nd ds md tr).matter_devices.wifi.length =
      (processTopology nd ds md tr).matter_devices.total
    ∧ (processTopology nd ds md tr).matter_devices.total = md.length := by
  refine ⟨?_, rfl⟩
  exact filter_transport_partition md h

/-- Witness for C10 at a concrete inventory. -/
theorem matter_summary_partition_witness :
    (processTopology ⟨none, none, none, none⟩ []
        [⟨"A", "", "", "thread"⟩, ⟨"B", "", "", "wifi"⟩, ⟨"C", "", "", "thread"⟩]
        []).matter_devices.thread.length
      + (processTopology ⟨none, none, none, none⟩ []
        [⟨"A", "", "", "thread"⟩, ⟨"B", "", "", "wifi"⟩, ⟨"C", "", "", "thread"⟩]
        []).matter_devices.wifi.length =
      (processTopology ⟨none, none, none, none⟩ []
        [⟨"A", "", "", "thread"⟩, ⟨"B", "", "", "wifi"⟩, ⟨"C", "", "", "thread"⟩]
        []).matter_devices.total :=
  (matter_summary_partition ⟨none, none, none, none⟩ []
    [⟨"A", "", "", "thread"⟩, ⟨"B", "", "", "wifi"⟩, ⟨"C", "", "", "thread"⟩]
    [] (by decide)).1

end ThreadTopology
